import Mathlib

/-! videoparser: picture-buffer pool, sequence hint, command-line driver and
stream bridge.

A shallow embedding of `test.cpp` (classes `Picture`, `VideoParserClient`, the
functions `parse` and `main`) and of `lib/gstvkvideoparser.cpp`
(`GstVkVideoParser::processMessages`, `build`, `pushBuffer`, `eos`,
`parseBuffer`).

Conventions.
* A C++ object is a Lean structure and a method is a function returning the
  new object (explicit state passing).
* `assert(e)` is active: a call whose assertion fails does not complete, which
  is the value `none` (for `parse`, the outcome `aborted`).
* `std::atomic<int32_t>` arithmetic is two's-complement: `++` and `--` wrap,
  see `wrapInt32`.
* A pointer to a pool element is the element's index in `m_dpb`.
* What the external libraries answer (the parsing engine, `fread`,
  `gst_harness_push`, `gst_element_link_many`) is an argument of the function
  that calls them.
-/

/-! ## Machine integers -/

/-- The value of an `int32_t` after two's-complement wrap-around. -/
def wrapInt32 (x : Int) : Int := (x + 2147483648) % 4294967296 - 2147483648

/-! ## `Picture` (test.cpp, lines 66-94) -/

/-- A `Picture`: the private atomic counter and the three public dimension
fields it inherits from `VkPicIf` and clears in `Release`. -/
structure Picture where
  m_refCount : Int
  decodeWidth : Int
  decodeHeight : Int
  decodeSuperResWidth : Int
deriving DecidableEq, Repr

/-- The constructor `Picture()`: it initialises `m_refCount` to 0 and nothing
else, so the inherited fields keep whatever the storage held (`uninit`). -/
def Picture.new (uninit : Picture) : Picture :=
  { uninit with m_refCount := 0 }

/-- `Picture::AddRef`: `assert(m_refCount >= 0); ++m_refCount;`. -/
def Picture.AddRef (p : Picture) : Option Picture :=
  if p.m_refCount ≥ 0 then
    some { p with m_refCount := wrapInt32 (p.m_refCount + 1) }
  else
    none

/-- `Picture::Release`: `assert(m_refCount > 0); ref = --m_refCount;` and the
three dimension fields are zeroed when `ref == 0`. -/
def Picture.Release (p : Picture) : Option Picture :=
  if p.m_refCount > 0 then
    let ref := wrapInt32 (p.m_refCount - 1)
    if ref = 0 then
      some { m_refCount := ref, decodeWidth := 0, decodeHeight := 0,
             decodeSuperResWidth := 0 }
    else
      some { p with m_refCount := ref }
  else
    none

/-- `Picture::isAvailable`: `m_refCount == 0`. -/
def Picture.isAvailable (p : Picture) : Bool :=
  decide (p.m_refCount = 0)

/-! ## `VideoParserClient` (test.cpp, lines 96-172) -/

/-- The client object: its only member is the vector `m_dpb`. -/
structure VideoParserClient where
  m_dpb : List Picture
deriving DecidableEq, Repr

/-- The vector constructor `m_dpb(n)`: `n` default-constructed pictures, the
`i`-th one built over the storage content `uninit i`. -/
def VideoParserClient.withCapacity (n : Nat) (uninit : Nat → Picture) :
    VideoParserClient :=
  { m_dpb := (List.range n).map (fun i => Picture.new (uninit i)) }

/-- The constructor `VideoParserClient()`: `m_dpb(32)`. -/
def VideoParserClient.new (uninit : Nat → Picture) : VideoParserClient :=
  VideoParserClient.withCapacity 32 uninit

/-- The range-for loop of `AllocPictureBuffer` over the pictures from index
`i` on. The result is `none` when an assertion fails, and otherwise the
returned pointer (`none` for `return false`) with the updated pictures. -/
def VideoParserClient.allocLoop :
    List Picture → Nat → Option (Option Nat × List Picture)
  | [], _ => some (none, [])
  | apic :: rest, i =>
    if apic.isAvailable then
      match apic.AddRef with
      | none => none
      | some q => some (some i, q :: rest)
    else
      match VideoParserClient.allocLoop rest (i + 1) with
      | none => none
      | some (r, rest') => some (r, apic :: rest')

/-- `VideoParserClient::AllocPictureBuffer`: the outer `none` is a failed
assertion; inside, `some i` is `*pic = &m_dpb[i]; return true` and `none` is
`return false`. -/
def VideoParserClient.AllocPictureBuffer (c : VideoParserClient) :
    Option (Option Nat × VideoParserClient) :=
  match VideoParserClient.allocLoop c.m_dpb 0 with
  | none => none
  | some (r, dpb) => some (r, { m_dpb := dpb })

/-- A call `pic->AddRef()` on the pool element with index `i`. -/
def VideoParserClient.addRefAt (c : VideoParserClient) (i : Nat) :
    Option VideoParserClient :=
  match c.m_dpb[i]? with
  | none => none
  | some p =>
    match p.AddRef with
    | none => none
    | some q => some { m_dpb := c.m_dpb.set i q }

/-- A call `pic->Release()` on the pool element with index `i`. -/
def VideoParserClient.releaseAt (c : VideoParserClient) (i : Nat) :
    Option VideoParserClient :=
  match c.m_dpb[i]? with
  | none => none
  | some p =>
    match p.Release with
    | none => none
    | some q => some { m_dpb := c.m_dpb.set i q }

/-- The holder of the pointer to element `i` writes the three public
dimension fields. -/
def VideoParserClient.writeDims (c : VideoParserClient) (i : Nat)
    (w h s : Int) : VideoParserClient :=
  match c.m_dpb[i]? with
  | none => c
  | some p =>
    { m_dpb := c.m_dpb.set i
        { p with decodeWidth := w, decodeHeight := h, decodeSuperResWidth := s } }

/-- The destructor `~VideoParserClient`: `assert(pic.isAvailable())` for every
picture; `none` when one of the assertions fails. -/
def VideoParserClient.destructor (c : VideoParserClient) : Option Unit :=
  if c.m_dpb.all Picture.isAvailable then some () else none

/-- `k` consecutive calls of `AllocPictureBuffer` with no release in between:
the returned pointers in call order, and the final client. -/
def VideoParserClient.allocMany :
    Nat → VideoParserClient → Option (List (Option Nat) × VideoParserClient)
  | 0, c => some ([], c)
  | k + 1, c =>
    match c.AllocPictureBuffer with
    | none => none
    | some (r, c1) =>
      match VideoParserClient.allocMany k c1 with
      | none => none
      | some (rs, c2) => some (r :: rs, c2)

/-- One call made on the pool by the parsing engine. -/
inductive PoolCall where
  | alloc : PoolCall
  | addRef : Nat → PoolCall
  | release : Nat → PoolCall
deriving DecidableEq, Repr

/-- The effect of one call; `none` when its assertion fails. -/
def VideoParserClient.call (c : VideoParserClient) :
    PoolCall → Option VideoParserClient
  | .alloc =>
    match c.AllocPictureBuffer with
    | none => none
    | some (_, c1) => some c1
  | .addRef i => c.addRefAt i
  | .release i => c.releaseAt i

/-- A sequence of calls, each passing its assertion. -/
def VideoParserClient.run (c : VideoParserClient) :
    List PoolCall → Option VideoParserClient
  | [] => some c
  | op :: ops =>
    match c.call op with
    | none => none
    | some c1 => VideoParserClient.run c1 ops

/-- Whether a call is an `AddRef` on a picture whose counter holds
2147483647, the largest `int32_t`. -/
def VideoParserClient.addRefAtMax (c : VideoParserClient) : PoolCall → Bool
  | .addRef i =>
    match c.m_dpb[i]? with
    | none => false
    | some p => decide (p.m_refCount = 2147483647)
  | _ => false

/-- Whether, along a sequence of calls, no `AddRef` meets a counter holding
2147483647. -/
def VideoParserClient.noAddRefAtMax (c : VideoParserClient) :
    List PoolCall → Bool
  | [] => true
  | op :: ops =>
    !c.addRefAtMax op &&
      match c.call op with
      | none => true
      | some c1 => VideoParserClient.noAddRefAtMax c1 ops

/-! ### `BeginSequence` (test.cpp, lines 103-120) -/

/-- The enumerators of `VkVideoCodecOperationFlagBitsKHR` (vulkan_beta.h). -/
def VK_VIDEO_CODEC_OPERATION_DECODE_H264_BIT_EXT : Nat := 0x00000001

/-- Enumerator of `VkVideoCodecOperationFlagBitsKHR` (vulkan_beta.h). -/
def VK_VIDEO_CODEC_OPERATION_DECODE_H265_BIT_EXT : Nat := 0x00000002

/-- Enumerator of `VkVideoCodecOperationFlagBitsKHR` (vulkan_beta.h). -/
def VK_VIDEO_CODEC_OPERATION_ENCODE_H264_BIT_EXT : Nat := 0x00010000

/-- The fields of `VkParserSequenceInfo` that `BeginSequence` reads. -/
structure VkParserSequenceInfo where
  eCodec : Nat
  isSVC : Bool
  nMinNumDecodeSurfaces : Int
deriving DecidableEq, Repr

/-- `VideoParserClient::BeginSequence`. The additions cannot overflow for an
`int32_t` field: the right-hand side is only added when the field is positive. -/
def VideoParserClient.BeginSequence (info : VkParserSequenceInfo) : Int :=
  let max : Int := 16
  let conf : Int := 1
  let max := if info.eCodec = VK_VIDEO_CODEC_OPERATION_ENCODE_H264_BIT_EXT
    then max + 1 else max
  let conf := if info.nMinNumDecodeSurfaces > 0
    then conf + (info.nMinNumDecodeSurfaces - (if info.isSVC then 3 else 1))
    else conf
  let conf := if conf > max then max else conf
  min conf 17

/-! ## The command-line driver (test.cpp, lines 174-259) -/

/-- A `VkParserBitstreamPacket` as `parse` fills it: the bytes `pByteStream`
points to, `nDataLength` and `bEOS`. -/
structure VkParserBitstreamPacket where
  pByteStream : List Nat
  nDataLength : Int
  bEOS : Bool
deriving DecidableEq, Repr

/-- The answers of the external parsing engine: what
`CreateVulkanVideoDecodeParser` returns, the `VkResult` of `Initialize`, the
result and the `parsed` count of `ParseByteStream` for a packet (it may depend
on the packets handed over before), what `Release` returns at the end, and
the state in which the engine's callbacks have left the client `client` of
`parse` by then. -/
structure VulkanVideoDecodeParser where
  Create : Bool
  Initialize : Int
  ParseByteStream :
    List VkParserBitstreamPacket → VkParserBitstreamPacket → Bool × Int
  Release : List VkParserBitstreamPacket → Int
  clientAtExit : List VkParserBitstreamPacket → VideoParserClient

/-- The `VkResult` value `VK_SUCCESS`. -/
def VK_SUCCESS : Int := 0

/-- `fread(buf, 1, BUFSIZ, stream)` on a stream with the bytes `stream` left
and no read error: the count read, the bytes put in `buf`, the bytes left. -/
def fread (BUFSIZ : Nat) (stream : List Nat) : Nat × List Nat × List Nat :=
  let read := min BUFSIZ stream.length
  (read, stream.take read, stream.drop read)

/-- How the `while (true)` loop of `parse` was left. -/
inductive LoopExit where
  | endOfData : LoopExit
  | parseFailed : LoopExit
  | assertFailed : LoopExit
deriving DecidableEq, Repr

/-- The `while (true)` loop of `parse`, at most `fuel` iterations (`none` when
they do not suffice): how the loop ends and the packets handed to
`ParseByteStream` from this iteration on; `sent` are the packets handed over
before. -/
def parseLoop (BUFSIZ : Nat) (parser : VulkanVideoDecodeParser) :
    Nat → List Nat → List VkParserBitstreamPacket →
      Option (LoopExit × List VkParserBitstreamPacket)
  | 0, _, _ => none
  | fuel + 1, stream, sent =>
    let (read, buf, stream1) := fread BUFSIZ stream
    if read ≤ 0 then
      some (LoopExit.endOfData, [])
    else
      let pkt : VkParserBitstreamPacket :=
        { pByteStream := buf
          nDataLength := wrapInt32 (read : Int)
          bEOS := decide (read < BUFSIZ) }
      let (ok, parsed) := parser.ParseByteStream sent pkt
      if !ok then
        some (LoopExit.parseFailed, [pkt])
      else if pkt.nDataLength ≠ parsed then
        some (LoopExit.assertFailed, [pkt])
      else
        match parseLoop BUFSIZ parser fuel stream1 (sent ++ [pkt]) with
        | none => none
        | some (e, pkts) => some (e, pkt :: pkts)

/-- How a call of `parse` ends. -/
inductive ParseOutcome where
  | returned : Bool → ParseOutcome
  | aborted : ParseOutcome
deriving DecidableEq, Repr

/-- The function `parse(stream)`, with the packets it handed to
`ParseByteStream`. Each `assert(ret)` aborts when `ret` is false, so the
`if (!ret) return ret;` after it is never taken; the destructor of the local
`client` runs at the final `return`. One iteration per byte left plus one is
enough fuel for the loop. -/
def parse (BUFSIZ : Nat) (parser : VulkanVideoDecodeParser)
    (stream : List Nat) :
    Option (ParseOutcome × List VkParserBitstreamPacket) :=
  let ret := parser.Create
  if !ret then
    some (ParseOutcome.aborted, [])
  else
    let ret := decide (parser.Initialize = VK_SUCCESS)
    if !ret then
      some (ParseOutcome.aborted, [])
    else
      match parseLoop BUFSIZ parser (stream.length + 1) stream [] with
      | none => none
      | some (LoopExit.assertFailed, pkts) => some (ParseOutcome.aborted, pkts)
      | some (_, pkts) =>
        let ret := decide (parser.Release pkts = 0)
        if !ret then
          some (ParseOutcome.aborted, pkts)
        else
          match (parser.clientAtExit pkts).destructor with
          | none => some (ParseOutcome.aborted, pkts)
          | some _ => some (ParseOutcome.returned ret, pkts)

/-- How the process ends: `return code` from `main`, or `abort()`. -/
inductive ExitStatus where
  | exited : Nat → ExitStatus
  | aborted : ExitStatus
deriving DecidableEq, Repr

/-- The value of `EXIT_SUCCESS`. -/
def EXIT_SUCCESS : Nat := 0

/-- The value of `EXIT_FAILURE`. -/
def EXIT_FAILURE : Nat := 1

/-- The function `main` of test.cpp. `unknownOption` says that `getopt` met an option
other than `-c`, `fileArg` that `optind < argc`, and `file` is what `fopen`
gives (`none` for a null pointer, else the file's bytes). -/
def Test.main (unknownOption fileArg : Bool) (file : Option (List Nat))
    (BUFSIZ : Nat) (parser : VulkanVideoDecodeParser) : Option ExitStatus :=
  if unknownOption then
    some (ExitStatus.exited EXIT_FAILURE)
  else if !fileArg then
    some (ExitStatus.exited EXIT_FAILURE)
  else
    match file with
    | none => some (ExitStatus.exited EXIT_FAILURE)
    | some stream =>
      match parse BUFSIZ parser stream with
      | none => none
      | some (ParseOutcome.aborted, _) => some ExitStatus.aborted
      | some (ParseOutcome.returned ret, _) =>
        if !ret then
          some (ExitStatus.exited EXIT_FAILURE)
        else
          some (ExitStatus.exited EXIT_SUCCESS)

/-! ## The stream bridge (lib/gstvkvideoparser.cpp) -/

/-- A message on the bus: its type and, for errors and warnings, the message
and debug texts. -/
inductive GstMessage where
  | error : String → String → GstMessage
  | warning : String → String → GstMessage
  | eos : GstMessage
  | other : String → GstMessage
deriving DecidableEq, Repr

/-- The level of a logging statement. -/
inductive LogLevel where
  | error : LogLevel
  | warning : LogLevel
  | debug : LogLevel
deriving DecidableEq, Repr

/-- An argument of a logging statement: a text for `%s`, the flow result
whose `gst_flow_get_name` is printed, or the buffer printed by
`GST_PTR_FORMAT`. -/
inductive LogArg where
  | str : String → LogArg
  | flowName : Int → LogArg
  | buffer : List Nat → LogArg
deriving DecidableEq, Repr

/-- A call of one of the logging statements: level, whether it is an
`_OBJECT` statement given `this`, format string and arguments. -/
structure LogLine where
  level : LogLevel
  object : Bool
  format : String
  args : List LogArg
deriving DecidableEq, Repr

/-- The statement `GST_ERROR (...)`. -/
def GST_ERROR (format : String) (args : List LogArg) : LogLine :=
  { level := LogLevel.error, object := false, format := format, args := args }

/-- The statement `GST_ERROR_OBJECT (this, ...)`. -/
def GST_ERROR_OBJECT (format : String) (args : List LogArg) : LogLine :=
  { level := LogLevel.error, object := true, format := format, args := args }

/-- The statement `GST_WARNING_OBJECT (this, ...)`. -/
def GST_WARNING_OBJECT (format : String) (args : List LogArg) : LogLine :=
  { level := LogLevel.warning, object := true, format := format, args := args }

/-- The statement `GST_DEBUG_OBJECT (this, ...)`. -/
def GST_DEBUG_OBJECT (format : String) (args : List LogArg) : LogLine :=
  { level := LogLevel.debug, object := true, format := format, args := args }

/-- The format macro `GST_PTR_FORMAT` (gstinfo.h). -/
def GST_PTR_FORMAT : String := "p\x07A"

/-- `GST_MESSAGE_TYPE_NAME (msg)`. -/
def GstMessage.typeName : GstMessage → String
  | .error _ _ => "error"
  | .warning _ _ => "warning"
  | .eos => "eos"
  | .other n => n

/-- The `GstFlowReturn` value `GST_FLOW_OK`. -/
def GST_FLOW_OK : Int := 0

/-- The `GstFlowReturn` value `GST_FLOW_EOS`. -/
def GST_FLOW_EOS : Int := -3

/-- The `GstFlowReturn` value `GST_FLOW_ERROR`. -/
def GST_FLOW_ERROR : Int := -5

/-- The engine object `GstVkH264Parser`: the client it was built with and the
buffers its `parse` method was given. -/
structure GstVkH264Parser where
  client : Nat
  received : List (List Nat)
deriving DecidableEq, Repr

/-- The harness made by `build`: the framing element's name, the source caps
string, and the live and playing flags. -/
structure GstHarness where
  parser_name : String
  src_caps_desc : String
  live : Bool
  playing : Bool
deriving DecidableEq, Repr

/-- The members of `GstVkVideoParser`; `mParser` is the member the source
calls `m_parser`. `mParser`, `m_harness` and `m_bus` are
`none` until the code assigns them; the bus is the queue of its pending
messages, oldest first. -/
structure GstVkVideoParser where
  m_client : Nat
  m_codec : Nat
  m_oob_pic_params : Bool
  mParser : Option GstVkH264Parser
  m_harness : Option GstHarness
  m_bus : Option (List GstMessage)
deriving DecidableEq, Repr

/-- The constructor: it initialises `m_client`, `m_codec` and
`m_oob_pic_params`. -/
def GstVkVideoParser.new (client codec : Nat) (oob_pic_params : Bool) :
    GstVkVideoParser :=
  { m_client := client, m_codec := codec, m_oob_pic_params := oob_pic_params,
    mParser := none, m_harness := none, m_bus := none }

/-- `gst_bus_pop`: the oldest pending message, if any, and the rest. -/
def gst_bus_pop : List GstMessage → Option GstMessage × List GstMessage
  | [] => (none, [])
  | msg :: rest => (some msg, rest)

/-- What the `switch` of `processMessages` logs for one message, after the
debug line with its type name. -/
def logMessage (msg : GstMessage) : List LogLine :=
  GST_DEBUG_OBJECT "%s" [LogArg.str msg.typeName] ::
    match msg with
    | .error m d =>
      [GST_ERROR_OBJECT "Error: %s - %s" [LogArg.str m, LogArg.str d]]
    | .warning m d =>
      [GST_WARNING_OBJECT "Warning: %s - %s" [LogArg.str m, LogArg.str d]]
    | .eos => [GST_DEBUG_OBJECT "Got EOS" []]
    | .other _ => []

/-- The loop `while ((msg = gst_bus_pop (m_bus)))` of `processMessages` on a
bus nothing is posted to meanwhile, at most `fuel` iterations: the lines
logged and the messages still pending. -/
def processLoop : Nat → List GstMessage → Option (List LogLine × List GstMessage)
  | 0, _ => none
  | fuel + 1, bus =>
    match gst_bus_pop bus with
    | (none, bus1) => some ([], bus1)
    | (some msg, bus1) =>
      match processLoop fuel bus1 with
      | none => none
      | some (log, bus2) => some (logMessage msg ++ log, bus2)

/-- `GstVkVideoParser::processMessages`; `none` when `m_bus` is not set. One
iteration per pending message plus one is enough fuel. -/
def GstVkVideoParser.processMessages (p : GstVkVideoParser) :
    Option (List LogLine × GstVkVideoParser) :=
  match p.m_bus with
  | none => none
  | some bus =>
    match processLoop (bus.length + 1) bus with
    | none => none
    | some (log, bus1) => some (log, { p with m_bus := some bus1 })

/-- `GstVkVideoParser::parseBuffer`: `m_parser->parse(buffer)`; `none` when
that member is not set. -/
def GstVkVideoParser.parseBuffer (p : GstVkVideoParser) (buffer : List Nat) :
    Option GstVkVideoParser :=
  match p.mParser with
  | none => none
  | some e =>
    some { p with mParser := some { e with received := e.received ++ [buffer] } }

/-- `GstVkVideoParser::build`; `linkOk` is what `gst_element_link_many`
returns. -/
def GstVkVideoParser.build (p : GstVkVideoParser) ( linkOk : Bool) :
    Bool × GstVkVideoParser :=
  let sel : Option (String × String × GstVkVideoParser) :=
    if p.m_codec = VK_VIDEO_CODEC_OPERATION_DECODE_H264_BIT_EXT then
      some ("h264parse", "video/x-h264,stream-format=byte-stream",
        { p with mParser := some { client := p.m_client, received := [] } })
    else if p.m_codec = VK_VIDEO_CODEC_OPERATION_DECODE_H265_BIT_EXT then
      some ("h265parse", "video/x-h265,stream-format=byte-stream", p)
    else
      none
  match sel with
  | none => (false, p)
  | some (parser_name, src_caps_desc, p1) =>
    if !linkOk then
      (false, p1)
    else
      (true, { p1 with
        m_harness := some { parser_name := parser_name
                            src_caps_desc := src_caps_desc
                            live := false
                            playing := true }
        m_bus := some [] })

/-- What the pipeline does during one `gst_harness_push`: the flow result,
the buffers its sink hands to `on_gst_buffer`, the messages it posts. -/
structure HarnessPush where
  ret : Int
  handoffs : List (List Nat)
  posted : List GstMessage
deriving DecidableEq, Repr

/-- The `handoff` signal handler `on_gst_buffer`:
`GST_ERROR ("Coucou buffer"); parser->parseBuffer(buf);`. -/
def on_gst_buffer (buf : List Nat) (p : GstVkVideoParser) :
    Option (List LogLine × GstVkVideoParser) :=
  match p.parseBuffer buf with
  | none => none
  | some p1 => some ([GST_ERROR "Coucou buffer" []], p1)

/-- The calls of `on_gst_buffer`, one per buffer the sink hands over, in
order. -/
def GstVkVideoParser.handoffs (p : GstVkVideoParser) :
    List (List Nat) → Option (List LogLine × GstVkVideoParser)
  | [] => some ([], p)
  | buf :: bufs =>
    match on_gst_buffer buf p with
    | none => none
    | some (log1, p1) =>
      match GstVkVideoParser.handoffs p1 bufs with
      | none => none
      | some (log2, p2) => some (log1 ++ log2, p2)

/-- The pipeline's part of `gst_harness_push (m_harness, buffer)`: the
handoffs run and the posted messages are queued on the bus; `none` when
`m_harness` or `m_bus` is not set or a handoff finds no engine. -/
def GstVkVideoParser.harnessPush (p : GstVkVideoParser) (h : HarnessPush) :
    Option (List LogLine × GstVkVideoParser) :=
  match p.m_harness, p.m_bus with
  | some _, some bus =>
    match p.handoffs h.handoffs with
    | none => none
    | some (log, p1) => some (log, { p1 with m_bus := some (bus ++ h.posted) })
  | _, _ => none

/-- `GstVkVideoParser::pushBuffer (buffer)`, `h` being what the pipeline does
during the push: the flow result returned, the logging statements run, in
order, and the new state. -/
def GstVkVideoParser.pushBuffer (p : GstVkVideoParser) (buffer : List Nat)
    (h : HarnessPush) : Option (Int × List LogLine × GstVkVideoParser) :=
  let log0 := [GST_DEBUG_OBJECT ("Pushing buffer: %" ++ GST_PTR_FORMAT)
    [LogArg.buffer buffer]]
  match p.harnessPush h with
  | none => none
  | some (log1, p1) =>
    let ret := h.ret
    if ret ≠ GST_FLOW_OK ∧ ret ≠ GST_FLOW_EOS then
      some (ret,
        log0 ++ log1 ++
          [GST_WARNING_OBJECT "Couldn't push buffer: %s" [LogArg.flowName ret]],
        p1)
    else
      match p1.processMessages with
      | none => none
      | some (log2, p2) => some (ret, log0 ++ log1 ++ log2, p2)

/-- `GstVkVideoParser::eos`; `pushed` is what `gst_harness_push_event`
returns and `posted` the messages the pipeline posts meanwhile. -/
def GstVkVideoParser.eos (p : GstVkVideoParser) (pushed : Bool)
    (posted : List GstMessage) :
    Option (Int × List LogLine × GstVkVideoParser) :=
  match p.m_harness, p.m_bus with
  | some _, some bus =>
    let log0 := [GST_DEBUG_OBJECT "Pushing EOS" []]
    let p1 := { p with m_bus := some (bus ++ posted) }
    if !pushed then
      some (GST_FLOW_ERROR, log0, p1)
    else
      match p1.processMessages with
      | none => none
      | some (log, p2) => some (GST_FLOW_EOS, log0 ++ log, p2)
  | _, _ => none

/-! ## Example inputs -/

/-- A pool with one held buffer followed by two available ones. -/
def examplePool : VideoParserClient :=
  { m_dpb := [⟨2, 640, 480, 640⟩, ⟨0, 0, 0, 0⟩, ⟨0, 7, 8, 9⟩] }

/-- A bridge built for H.264 decoding whose stages linked. -/
def builtBridge : GstVkVideoParser :=
  ((GstVkVideoParser.new 0 VK_VIDEO_CODEC_OPERATION_DECODE_H264_BIT_EXT true).build
    true).2

/-- A push the pipeline answers with `GST_FLOW_ERROR` after posting an error
message. -/
def failedPush : HarnessPush :=
  { ret := GST_FLOW_ERROR, handoffs := [],
    posted := [GstMessage.error "Internal data stream error." "streaming stopped"] }

/-- An engine that rejects every packet, holds no picture at the end, and whose
`Release` returns 0. -/
def rejectingEngine : VulkanVideoDecodeParser :=
  { Create := true, Initialize := 0,
    ParseByteStream := fun _ _ => (false, 0),
    Release := fun _ => 0,
    clientAtExit := fun _ => VideoParserClient.new (fun _ => ⟨0, 0, 0, 0⟩) }

/-- An engine that accepts every packet whole, holds no picture at the end,
and whose `Release` returns 0. -/
def acceptingEngine : VulkanVideoDecodeParser :=
  { Create := true, Initialize := 0,
    ParseByteStream := fun _ pkt => (true, pkt.nDataLength),
    Release := fun _ => 0,
    clientAtExit := fun _ => VideoParserClient.new (fun _ => ⟨0, 0, 0, 0⟩) }

/-! ## Theorems: the picture-buffer pool -/

theorem wrapInt32_of_range (x : Int) (h0 : -2147483648 ≤ x) (h1 : x < 2147483648) :
    wrapInt32 x = x := by
  unfold wrapInt32
  omega

theorem allocLoop_exhausted (l : List Picture) (i : Nat)
    (h : ∀ p ∈ l, p.m_refCount ≠ 0) :
    VideoParserClient.allocLoop l i = some (none, l) := by
  induction l generalizing i with
  | nil => rfl
  | cons a rest ih =>
    have ha : a.m_refCount ≠ 0 := h a (List.mem_cons_self a rest)
    have hr : ∀ p ∈ rest, p.m_refCount ≠ 0 :=
      fun p hp => h p (List.mem_cons_of_mem a hp)
    simp [VideoParserClient.allocLoop, Picture.isAvailable, ha, ih (i + 1) hr]

theorem allocLoop_first (l : List Picture) (i k : Nat) (p : Picture)
    (hk : l[k]? = some p) (hp : p.m_refCount = 0)
    (hlt : ∀ j q, j < k → l[j]? = some q → q.m_refCount ≠ 0) :
    VideoParserClient.allocLoop l i
      = some (some (i + k), l.set k { p with m_refCount := 1 }) := by
  induction l generalizing i k with
  | nil => simp at hk
  | cons a rest ih =>
    cases k with
    | zero =>
      simp at hk
      subst hk
      simp [VideoParserClient.allocLoop, Picture.isAvailable, Picture.AddRef, hp,
        wrapInt32]
    | succ k =>
      simp at hk
      have ha : a.m_refCount ≠ 0 := hlt 0 a (Nat.succ_pos k) (by simp)
      have hrest : ∀ j q, j < k → rest[j]? = some q → q.m_refCount ≠ 0 := by
        intro j q hj hq
        exact hlt (j + 1) q (Nat.succ_lt_succ hj) (by simpa using hq)
      have e := ih (i + 1) k hk hrest
      simp [VideoParserClient.allocLoop, Picture.isAvailable, ha, e]
      omega

theorem exists_first_available (l : List Picture)
    (h : ∃ p ∈ l, p.m_refCount = 0) :
    ∃ (k : Nat) (p : Picture), l[k]? = some p ∧ p.m_refCount = 0 ∧
      ∀ (j : Nat) (q : Picture), j < k → l[j]? = some q → q.m_refCount ≠ 0 := by
  induction l with
  | nil => simp at h
  | cons a rest ih =>
    by_cases ha : a.m_refCount = 0
    · exact ⟨0, a, by simp, ha, fun j q hj _ => absurd hj (Nat.not_lt_zero j)⟩
    · have h2 : ∃ p ∈ rest, p.m_refCount = 0 := by
        obtain ⟨p, hp, hp0⟩ := h
        rcases List.mem_cons.mp hp with rfl | hp
        · exact absurd hp0 ha
        · exact ⟨p, hp, hp0⟩
      obtain ⟨k, p, hk, hp0, hlt⟩ := ih h2
      refine ⟨k + 1, p, by simpa using hk, hp0, ?_⟩
      intro j q hj hq
      cases j with
      | zero =>
        simp at hq
        subst hq
        exact ha
      | succ j =>
        exact hlt j q (Nat.lt_of_succ_lt_succ hj) (by simpa using hq)

/-- Inversion of a successful allocation: the returned index is the first
available one and the pool changes at that index only. -/
theorem alloc_some_inv (c c1 : VideoParserClient) (i : Nat)
    (h : c.AllocPictureBuffer = some (some i, c1)) :
    ∃ p, c.m_dpb[i]? = some p ∧ p.m_refCount = 0 ∧
      (∀ j q, j < i → c.m_dpb[j]? = some q → q.m_refCount ≠ 0) ∧
      c1.m_dpb = c.m_dpb.set i { p with m_refCount := 1 } := by
  by_cases hex : ∃ p ∈ c.m_dpb, p.m_refCount = 0
  · obtain ⟨k, p, hk, hp0, hlt⟩ := exists_first_available c.m_dpb hex
    have e := allocLoop_first c.m_dpb 0 k p hk hp0 hlt
    simp [VideoParserClient.AllocPictureBuffer, e] at h
    obtain ⟨rfl, rfl⟩ := h
    exact ⟨p, hk, hp0, hlt, rfl⟩
  · have hall : ∀ p ∈ c.m_dpb, p.m_refCount ≠ 0 := by
      intro p hp h0
      exact hex ⟨p, hp, h0⟩
    have e := allocLoop_exhausted c.m_dpb 0 hall
    simp [VideoParserClient.AllocPictureBuffer, e] at h

/-- An allocation never stops at an assertion. -/
theorem alloc_total (c : VideoParserClient) :
    ∃ r c1, c.AllocPictureBuffer = some (r, c1) := by
  by_cases hex : ∃ p ∈ c.m_dpb, p.m_refCount = 0
  · obtain ⟨k, p, hk, hp0, hlt⟩ := exists_first_available c.m_dpb hex
    have e := allocLoop_first c.m_dpb 0 k p hk hp0 hlt
    exact ⟨some (0 + k), ⟨c.m_dpb.set k { p with m_refCount := 1 }⟩,
      by simp [VideoParserClient.AllocPictureBuffer, e]⟩
  · have hall : ∀ p ∈ c.m_dpb, p.m_refCount ≠ 0 := by
      intro p hp h0
      exact hex ⟨p, hp, h0⟩
    have e := allocLoop_exhausted c.m_dpb 0 hall
    exact ⟨none, ⟨c.m_dpb⟩, by simp [VideoParserClient.AllocPictureBuffer, e]⟩

theorem alloc_none_iff (c : VideoParserClient) :
    (∃ c1, c.AllocPictureBuffer = some (none, c1)) ↔
      ∀ p ∈ c.m_dpb, p.m_refCount ≠ 0 := by
  constructor
  · rintro ⟨c1, h⟩ p hp h0
    obtain ⟨k, q, hk, hq0, hlt⟩ := exists_first_available c.m_dpb ⟨p, hp, h0⟩
    have e := allocLoop_first c.m_dpb 0 k q hk hq0 hlt
    simp [VideoParserClient.AllocPictureBuffer, e] at h
  · intro hall
    have e := allocLoop_exhausted c.m_dpb 0 hall
    exact ⟨c, by simp [VideoParserClient.AllocPictureBuffer, e]⟩

theorem alloc_none_unchanged (c c1 : VideoParserClient)
    (h : c.AllocPictureBuffer = some (none, c1)) : c1 = c := by
  have hall := (alloc_none_iff c).mp ⟨c1, h⟩
  have e := allocLoop_exhausted c.m_dpb 0 hall
  simp [VideoParserClient.AllocPictureBuffer, e] at h
  exact h.symm

theorem alloc_append (pre post : List Picture) (q : Picture)
    (hpre : ∀ p ∈ pre, p.m_refCount ≠ 0) (hq : q.m_refCount = 0) :
    VideoParserClient.AllocPictureBuffer { m_dpb := pre ++ q :: post }
      = some (some pre.length,
          { m_dpb := pre ++ { q with m_refCount := 1 } :: post }) := by
  have hk : (pre ++ q :: post)[pre.length]? = some q := by
    rw [List.getElem?_append_right (Nat.le_refl _)]
    simp
  have hlt : ∀ (j : Nat) (x : Picture), j < pre.length →
      (pre ++ q :: post)[j]? = some x → x.m_refCount ≠ 0 := by
    intro j x hj hx
    rw [List.getElem?_append_left hj] at hx
    exact hpre x (List.getElem?_mem hx)
  have e := allocLoop_first (pre ++ q :: post) 0 pre.length q hk hq hlt
  simp [VideoParserClient.AllocPictureBuffer, e]

theorem allocMany_fresh (m : Nat) :
    ∀ (pre post : List Picture), (∀ p ∈ pre, p.m_refCount ≠ 0) →
      (∀ p ∈ post, p.m_refCount = 0) → post.length = m →
      VideoParserClient.allocMany m { m_dpb := pre ++ post }
        = some ((List.range' pre.length m).map some,
            { m_dpb := pre ++ post.map (fun q => { q with m_refCount := 1 }) }) := by
  induction m with
  | zero =>
    intro pre post _ _ hlen
    have : post = [] := List.length_eq_zero.mp hlen
    subst this
    simp [VideoParserClient.allocMany]
  | succ m ih =>
    intro pre post hpre hpost hlen
    cases post with
    | nil => simp at hlen
    | cons q post =>
      have hq : q.m_refCount = 0 := hpost q (List.mem_cons_self q post)
      have hpre1 : ∀ p ∈ pre ++ [{ q with m_refCount := 1 }], p.m_refCount ≠ 0 := by
        intro p hp
        rcases List.mem_append.mp hp with hp | hp
        · exact hpre p hp
        · simp at hp
          subst hp
          simp
      have hpost1 : ∀ p ∈ post, p.m_refCount = 0 :=
        fun p hp => hpost p (List.mem_cons_of_mem q hp)
      have hlen1 : post.length = m := by simpa using hlen
      have e := ih (pre ++ [{ q with m_refCount := 1 }]) post hpre1 hpost1 hlen1
      simp only [List.append_assoc, List.singleton_append, List.length_append,
        List.length_singleton] at e
      simp only [VideoParserClient.allocMany, alloc_append pre post q hpre hq, e,
        List.range'_succ, List.map_cons]

/-- C1: when some buffer of the pool has reference count 0,
`AllocPictureBuffer` completes and returns true with the index `i` of a buffer
whose count was 0 while every buffer before it had a non-zero count (first
fit); afterwards buffer `i` is the old one with its count set to exactly 1,
every other buffer is unchanged, and the pool has the same size. -/
theorem alloc_first_fit (c : VideoParserClient)
    (h : ∃ p ∈ c.m_dpb, p.m_refCount = 0) :
    ∃ (i : Nat) (p : Picture) (c1 : VideoParserClient),
      c.AllocPictureBuffer = some (some i, c1) ∧
      c.m_dpb[i]? = some p ∧ p.m_refCount = 0 ∧
      (∀ (j : Nat) (q : Picture), j < i → c.m_dpb[j]? = some q → q.m_refCount ≠ 0) ∧
      c1.m_dpb[i]? = some { p with m_refCount := 1 } ∧
      (∀ j : Nat, j ≠ i → c1.m_dpb[j]? = c.m_dpb[j]?) ∧
      c1.m_dpb.length = c.m_dpb.length := by
  obtain ⟨k, p, hk, hp0, hlt⟩ := exists_first_available c.m_dpb h
  have e := allocLoop_first c.m_dpb 0 k p hk hp0 hlt
  have hklt : k < c.m_dpb.length := (List.getElem?_eq_some_iff.mp hk).1
  refine ⟨k, p, ⟨c.m_dpb.set k { p with m_refCount := 1 }⟩, ?_, hk, hp0, hlt, ?_, ?_, ?_⟩
  · simp [VideoParserClient.AllocPictureBuffer, e]
  · simp [hklt]
  · intro j hj
    simp [List.getElem?_set_ne (Ne.symm hj)]
  · simp

/-- Witness of `alloc_first_fit` on `examplePool`. -/
theorem alloc_first_fit_witness :
    (∃ p ∈ examplePool.m_dpb, p.m_refCount = 0) ∧
    ∃ (i : Nat) (p : Picture) (c1 : VideoParserClient),
      examplePool.AllocPictureBuffer = some (some i, c1) ∧
      examplePool.m_dpb[i]? = some p ∧ p.m_refCount = 0 ∧
      (∀ (j : Nat) (q : Picture), j < i → examplePool.m_dpb[j]? = some q →
        q.m_refCount ≠ 0) ∧
      c1.m_dpb[i]? = some { p with m_refCount := 1 } ∧
      (∀ j : Nat, j ≠ i → c1.m_dpb[j]? = examplePool.m_dpb[j]?) ∧
      c1.m_dpb.length = examplePool.m_dpb.length :=
  ⟨⟨⟨0, 0, 0, 0⟩, by decide, rfl⟩,
    alloc_first_fit examplePool ⟨⟨0, 0, 0, 0⟩, by decide, rfl⟩⟩

/-- C2: for every capacity `N`, starting from the freshly constructed pool
the `N` first consecutive calls of `AllocPictureBuffer` return true with the
buffers 0, 1, ..., N-1 in this order (so `N` pairwise distinct buffers), and
the next call returns false and leaves the pool as it is; and in any pool
state `AllocPictureBuffer` returns false exactly when no buffer has reference
count 0, the pool being then unchanged. -/
theorem pool_capacity (N : Nat) (uninit : Nat → Picture) :
    (∃ (rs : List (Option Nat)) (c1 : VideoParserClient),
      (VideoParserClient.withCapacity N uninit).allocMany N = some (rs, c1) ∧
      rs = (List.range N).map some ∧ rs.length = N ∧ rs.Nodup ∧
      (∀ r ∈ rs, r ≠ none) ∧
      c1.AllocPictureBuffer = some (none, c1)) ∧
    (∀ c : VideoParserClient,
      ((∃ c1, c.AllocPictureBuffer = some (none, c1)) ↔
        ∀ p ∈ c.m_dpb, p.m_refCount ≠ 0) ∧
      (∀ c1, c.AllocPictureBuffer = some (none, c1) → c1 = c)) := by
  refine ⟨?_, fun c => ⟨alloc_none_iff c, alloc_none_unchanged c⟩⟩
  have hfresh : ∀ p ∈ (List.range N).map (fun i => Picture.new (uninit i)),
      p.m_refCount = 0 := by
    intro p hp
    obtain ⟨i, _, rfl⟩ := List.mem_map.mp hp
    rfl
  have e := allocMany_fresh N [] _ (by simp) hfresh (by simp)
  simp only [List.nil_append, List.length_nil] at e
  refine ⟨_, _, e, ?_, ?_, ?_, ?_, ?_⟩
  · rw [List.range_eq_range']
  · simp
  · exact (List.nodup_range' 0 N).map (Option.some_injective Nat)
  · intro r hr
    obtain ⟨i, _, rfl⟩ := List.mem_map.mp hr
    simp
  · have hall : ∀ p ∈ ((List.range N).map (fun i => Picture.new (uninit i))).map
        (fun q => { q with m_refCount := 1 }), p.m_refCount ≠ 0 := by
      intro p hp
      obtain ⟨q, _, rfl⟩ := List.mem_map.mp hp
      simp
    have e2 := allocLoop_exhausted _ 0 hall
    simp only [VideoParserClient.AllocPictureBuffer, e2]

/-- C3: when `AllocPictureBuffer` returns the buffer at index `i`, then
whatever dimensions `w`, `h`, `s` are written to that buffer while it is held,
`Release` on it completes, leaves it with reference count 0 and the three
dimension fields 0, and the next `AllocPictureBuffer` returns index `i`
again. -/
theorem alloc_release_alloc (c c1 : VideoParserClient) (i : Nat) (w h s : Int)
    (halloc : c.AllocPictureBuffer = some (some i, c1)) :
    ∃ c3 : VideoParserClient,
      (c1.writeDims i w h s).releaseAt i = some c3 ∧
      c3.m_dpb[i]? = some ⟨0, 0, 0, 0⟩ ∧
      ∃ c4 : VideoParserClient, c3.AllocPictureBuffer = some (some i, c4) := by
  obtain ⟨p, hk, _, hlt, hc1⟩ := alloc_some_inv c c1 i halloc
  have hi : i < c.m_dpb.length := (List.getElem?_eq_some_iff.mp hk).1
  have hget1 : c1.m_dpb[i]? = some { p with m_refCount := 1 } := by
    rw [hc1]
    simp [hi]
  have hw : c1.writeDims i w h s = { m_dpb := c.m_dpb.set i ⟨1, w, h, s⟩ } := by
    unfold VideoParserClient.writeDims
    rw [hget1]
    simp only
    rw [hc1, List.set_set]
  have hrel : (c1.writeDims i w h s).releaseAt i
      = some { m_dpb := c.m_dpb.set i ⟨0, 0, 0, 0⟩ } := by
    rw [hw]
    simp [VideoParserClient.releaseAt, hi, Picture.Release, wrapInt32, List.set_set]
  have hget3 : (c.m_dpb.set i (⟨0, 0, 0, 0⟩ : Picture))[i]? = some ⟨0, 0, 0, 0⟩ := by
    simp [hi]
  have hlt3 : ∀ (j : Nat) (q : Picture), j < i →
      (c.m_dpb.set i (⟨0, 0, 0, 0⟩ : Picture))[j]? = some q → q.m_refCount ≠ 0 := by
    intro j q hj hq
    rw [List.getElem?_set_ne (Nat.ne_of_gt hj)] at hq
    exact hlt j q hj hq
  have e := allocLoop_first _ 0 i ⟨0, 0, 0, 0⟩ hget3 rfl hlt3
  refine ⟨{ m_dpb := c.m_dpb.set i ⟨0, 0, 0, 0⟩ }, hrel, hget3,
    ⟨{ m_dpb := (c.m_dpb.set i ⟨0, 0, 0, 0⟩).set i ⟨1, 0, 0, 0⟩ }, ?_⟩⟩
  simp only [VideoParserClient.AllocPictureBuffer, e, Nat.zero_add]

/-- Witness of `alloc_release_alloc` on `examplePool`, with the dimensions
1920, 1080, 3840 written while buffer 1 is held. -/
theorem alloc_release_alloc_witness :
    examplePool.AllocPictureBuffer
        = some (some 1, { m_dpb := [⟨2, 640, 480, 640⟩, ⟨1, 0, 0, 0⟩, ⟨0, 7, 8, 9⟩] }) ∧
    ∃ c3 : VideoParserClient,
      (VideoParserClient.writeDims
          { m_dpb := [⟨2, 640, 480, 640⟩, ⟨1, 0, 0, 0⟩, ⟨0, 7, 8, 9⟩] }
          1 1920 1080 3840).releaseAt 1 = some c3 ∧
      c3.m_dpb[1]? = some ⟨0, 0, 0, 0⟩ ∧
      ∃ c4 : VideoParserClient, c3.AllocPictureBuffer = some (some 1, c4) :=
  ⟨by decide, alloc_release_alloc examplePool _ 1 1920 1080 3840 (by decide)⟩

/-! ### Reference counts -/

theorem call_inRange (c c1 : VideoParserClient) (op : PoolCall)
    (hB : ∀ p ∈ c.m_dpb, 0 ≤ p.m_refCount ∧ p.m_refCount ≤ 2147483647)
    (hop : c.addRefAtMax op = false)
    (h : c.call op = some c1) :
    ∀ p ∈ c1.m_dpb, 0 ≤ p.m_refCount ∧ p.m_refCount ≤ 2147483647 := by
  cases op with
  | alloc =>
    simp only [VideoParserClient.call] at h
    obtain ⟨r, c2, e⟩ := alloc_total c
    rw [e] at h
    simp at h
    subst h
    cases r with
    | none =>
      rw [alloc_none_unchanged c c2 e]
      exact hB
    | some i =>
      obtain ⟨q, _, _, _, hc2⟩ := alloc_some_inv c c2 i e
      intro p hp
      rw [hc2] at hp
      rcases List.mem_or_eq_of_mem_set hp with hp | rfl
      · exact hB p hp
      · simp
  | addRef i =>
    simp only [VideoParserClient.call, VideoParserClient.addRefAt] at h
    cases hg : c.m_dpb[i]? with
    | none => simp [hg] at h
    | some q =>
      have hq := hB q (List.getElem?_mem hg)
      have hne : q.m_refCount ≠ 2147483647 := by
        simpa [VideoParserClient.addRefAtMax, hg] using hop
      have hwrap : wrapInt32 (q.m_refCount + 1) = q.m_refCount + 1 :=
        wrapInt32_of_range _ (by omega) (by omega)
      simp [hg, Picture.AddRef, hq.1, hwrap] at h
      subst h
      intro p hp
      rcases List.mem_or_eq_of_mem_set hp with hp | rfl
      · exact hB p hp
      · simp
        omega
  | release i =>
    simp only [VideoParserClient.call, VideoParserClient.releaseAt] at h
    cases hg : c.m_dpb[i]? with
    | none => simp [hg] at h
    | some q =>
      have hq := hB q (List.getElem?_mem hg)
      by_cases hpos : q.m_refCount > 0
      · have hwrap : wrapInt32 (q.m_refCount - 1) = q.m_refCount - 1 :=
          wrapInt32_of_range _ (by omega) (by omega)
        simp only [hg, Picture.Release, hpos, if_true, hwrap] at h
        intro p hp
        by_cases hz : q.m_refCount - 1 = 0
        · simp [hz] at h
          subst h
          rcases List.mem_or_eq_of_mem_set hp with hp | rfl
          · exact hB p hp
          · simp
        · simp [hz] at h
          subst h
          rcases List.mem_or_eq_of_mem_set hp with hp | rfl
          · exact hB p hp
          · simp
            omega
      · simp [hg, Picture.Release, hpos] at h

theorem run_inRange (ops : List PoolCall) :
    ∀ (c c1 : VideoParserClient),
      (∀ p ∈ c.m_dpb, 0 ≤ p.m_refCount ∧ p.m_refCount ≤ 2147483647) →
      c.noAddRefAtMax ops = true →
      c.run ops = some c1 →
      ∀ p ∈ c1.m_dpb, 0 ≤ p.m_refCount ∧ p.m_refCount ≤ 2147483647 := by
  induction ops with
  | nil =>
    intro c c1 hB _ h
    simp [VideoParserClient.run] at h
    subst h
    exact hB
  | cons op ops ih =>
    intro c c1 hB hno h
    simp only [VideoParserClient.run] at h
    simp only [VideoParserClient.noAddRefAtMax, Bool.and_eq_true,
      Bool.not_eq_true'] at hno
    cases hc : c.call op with
    | none => simp [hc] at h
    | some c2 =>
      simp only [hc] at h
      have hno2 : c2.noAddRefAtMax ops = true := by
        have := hno.2
        simpa [hc] using this
      exact ih c2 c1 (call_inRange c c2 op hB hno.1 hc) hno2 h

theorem run_append (a b : List PoolCall) :
    ∀ c : VideoParserClient, c.run (a ++ b) = (c.run a).bind (fun c1 => c1.run b) := by
  induction a with
  | nil => intro c; simp [VideoParserClient.run]
  | cons op a ih =>
    intro c
    simp only [List.cons_append, VideoParserClient.run]
    cases c.call op with
    | none => simp
    | some c1 => simpa using ih c1

theorem run_addRef_replicate (k : Nat) :
    ∀ (p : Picture) (rest : List Picture), 0 ≤ p.m_refCount →
      p.m_refCount + (k : Int) < 2147483648 →
      VideoParserClient.run { m_dpb := p :: rest } (List.replicate k (PoolCall.addRef 0))
        = some { m_dpb := { p with m_refCount := p.m_refCount + (k : Int) } :: rest } := by
  induction k with
  | zero =>
    intro p rest _ _
    simp [VideoParserClient.run]
  | succ k ih =>
    intro p rest h0 hlt
    have hwrap : wrapInt32 (p.m_refCount + 1) = p.m_refCount + 1 :=
      wrapInt32_of_range _ (by omega) (by omega)
    have hstep : VideoParserClient.call { m_dpb := p :: rest } (PoolCall.addRef 0)
        = some { m_dpb := { p with m_refCount := p.m_refCount + 1 } :: rest } := by
      simp [VideoParserClient.call, VideoParserClient.addRefAt, Picture.AddRef, h0, hwrap]
    have e := ih { p with m_refCount := p.m_refCount + 1 } rest
      (by simp; omega) (by simp; omega)
    simp only [List.replicate_succ, VideoParserClient.run, hstep, e]
    simp
    omega

/-- C4, as stated, fails: on the freshly constructed 32-buffer pool,
2147483648 calls of `AddRef` on buffer 0 all pass their assertion, and the
32-bit counter of buffer 0 is then -2147483648. -/
theorem refcount_wraps_negative :
    ∃ c1 : VideoParserClient,
      (VideoParserClient.new (fun _ => ⟨0, 0, 0, 0⟩)).run
          (List.replicate 2147483648 (PoolCall.addRef 0)) = some c1 ∧
      ∃ p ∈ c1.m_dpb, c1.m_dpb[0]? = some p ∧ p.m_refCount = -2147483648 ∧
        p.m_refCount < 0 := by
  have hnew : VideoParserClient.new (fun _ => ⟨0, 0, 0, 0⟩)
      = { m_dpb := ⟨0, 0, 0, 0⟩ :: List.replicate 31 ⟨0, 0, 0, 0⟩ } := by decide
  have hrep : List.replicate 2147483648 (PoolCall.addRef 0)
      = List.replicate 2147483647 (PoolCall.addRef 0) ++ [PoolCall.addRef 0] :=
    List.replicate_succ' (n := 2147483647) (a := PoolCall.addRef 0)
  have h1 := run_addRef_replicate 2147483647 ⟨0, 0, 0, 0⟩
    (List.replicate 31 ⟨0, 0, 0, 0⟩) (by decide) (by decide)
  have hlast : VideoParserClient.run
      { m_dpb := ⟨2147483647, 0, 0, 0⟩ :: List.replicate 31 ⟨0, 0, 0, 0⟩ }
      [PoolCall.addRef 0]
      = some { m_dpb := ⟨-2147483648, 0, 0, 0⟩ :: List.replicate 31 ⟨0, 0, 0, 0⟩ } := by
    decide
  refine ⟨{ m_dpb := ⟨-2147483648, 0, 0, 0⟩ :: List.replicate 31 ⟨0, 0, 0, 0⟩ },
    ?_, ⟨-2147483648, 0, 0, 0⟩, List.mem_cons_self _ _, rfl, rfl, by decide⟩
  rw [hnew, hrep, run_append, h1]
  exact hlast

/-- C4, amended: `Release` on a buffer whose reference count is 0 fails its
assertion and yields no new state, so nothing is decremented; hence in every
state reached from a freshly constructed pool of any capacity by any sequence
of `AllocPictureBuffer`, `AddRef` and `Release` calls that all pass their
assertions and none of which is an `AddRef` on a count of 2147483647, every
reference count is at least 0; and a `Release` that leaves the count above 0
leaves the three dimension fields unchanged. -/
theorem refcount_nonneg :
    (∀ p : Picture, p.m_refCount = 0 → p.Release = none) ∧
    (∀ (N : Nat) (uninit : Nat → Picture) (ops : List PoolCall)
        (c1 : VideoParserClient),
      (VideoParserClient.withCapacity N uninit).noAddRefAtMax ops = true →
      (VideoParserClient.withCapacity N uninit).run ops = some c1 →
      ∀ p ∈ c1.m_dpb, 0 ≤ p.m_refCount) ∧
    (∀ p q : Picture, p.Release = some q → 0 < q.m_refCount →
      q.decodeWidth = p.decodeWidth ∧ q.decodeHeight = p.decodeHeight ∧
      q.decodeSuperResWidth = p.decodeSuperResWidth) := by
  refine ⟨?_, ?_, ?_⟩
  · intro p hp
    simp [Picture.Release, hp]
  · intro N uninit ops c1 hno hrun p hp
    have hfresh : ∀ q ∈ (VideoParserClient.withCapacity N uninit).m_dpb,
        0 ≤ q.m_refCount ∧ q.m_refCount ≤ 2147483647 := by
      intro q hq
      obtain ⟨i, _, rfl⟩ := List.mem_map.mp hq
      simp [Picture.new]
    exact (run_inRange ops _ c1 hfresh hno hrun p hp).1
  · intro p q h hq
    unfold Picture.Release at h
    by_cases hpos : p.m_refCount > 0
    · simp only [hpos, if_true] at h
      by_cases hz : wrapInt32 (p.m_refCount - 1) = 0
      · simp [hz] at h
        subst h
        simp at hq
      · simp [hz] at h
        subst h
        simp
    · simp [hpos] at h

/-- Witness of `refcount_nonneg`: a release at count 0, a run of seven calls
on a fresh pool of three buffers, and a release from count 2. -/
theorem refcount_nonneg_witness :
    Picture.Release ⟨0, 640, 480, 640⟩ = none ∧
    (∀ p ∈ [(⟨1, 0, 0, 0⟩ : Picture), ⟨2, 0, 0, 0⟩, ⟨0, 0, 0, 0⟩], 0 ≤ p.m_refCount) ∧
    ((⟨1, 640, 480, 640⟩ : Picture).decodeWidth = 640 ∧
      (⟨1, 640, 480, 640⟩ : Picture).decodeHeight = 480 ∧
      (⟨1, 640, 480, 640⟩ : Picture).decodeSuperResWidth = 640) :=
  ⟨refcount_nonneg.1 ⟨0, 640, 480, 640⟩ rfl,
    refcount_nonneg.2.1 3 (fun _ => ⟨0, 0, 0, 0⟩)
      [PoolCall.alloc, PoolCall.alloc, PoolCall.addRef 0, PoolCall.release 0,
        PoolCall.release 0, PoolCall.alloc, PoolCall.addRef 1]
      { m_dpb := [⟨1, 0, 0, 0⟩, ⟨2, 0, 0, 0⟩, ⟨0, 0, 0, 0⟩] } (by decide) (by decide),
    refcount_nonneg.2.2 ⟨2, 640, 480, 640⟩ ⟨1, 640, 480, 640⟩
      (by decide) (by decide)⟩

/-! ## Theorems: the surface-count hint -/

/-- C5, as stated, fails: for a declared minimum of 0 and the H.264-decode
codec the hint is 1, not 16; and for the H.264-encode codec it is 1, not 17. -/
theorem BeginSequence_zero_not_baseline :
    VideoParserClient.BeginSequence
        { eCodec := VK_VIDEO_CODEC_OPERATION_DECODE_H264_BIT_EXT, isSVC := false,
          nMinNumDecodeSurfaces := 0 } = 1 ∧
    VideoParserClient.BeginSequence
        { eCodec := VK_VIDEO_CODEC_OPERATION_DECODE_H264_BIT_EXT, isSVC := false,
          nMinNumDecodeSurfaces := 0 } ≠ 16 ∧
    VideoParserClient.BeginSequence
        { eCodec := VK_VIDEO_CODEC_OPERATION_ENCODE_H264_BIT_EXT, isSVC := false,
          nMinNumDecodeSurfaces := 0 } ≠ 17 := by
  decide

/-- C5, amended: for every sequence info whose declared minimum
decode-surface count is 0, `BeginSequence` returns 1 (the initial value of
`conf`, which the upper clamps 16 or 17 leave alone), whatever the codec and
the layered flag are. -/
theorem BeginSequence_zero (codec : Nat) (svc : Bool) :
    VideoParserClient.BeginSequence
      { eCodec := codec, isSVC := svc, nMinNumDecodeSurfaces := 0 } = 1 := by
  unfold VideoParserClient.BeginSequence
  by_cases hc : codec = VK_VIDEO_CODEC_OPERATION_ENCODE_H264_BIT_EXT <;> simp [hc]

/-- C6, as stated, fails: for a declared minimum of 100, layered flag false
and the H.264-decode codec the hint is 16, not 17. -/
theorem BeginSequence_hundred_decode :
    VideoParserClient.BeginSequence
        { eCodec := VK_VIDEO_CODEC_OPERATION_DECODE_H264_BIT_EXT, isSVC := false,
          nMinNumDecodeSurfaces := 100 } = 16 ∧
    VideoParserClient.BeginSequence
        { eCodec := VK_VIDEO_CODEC_OPERATION_DECODE_H264_BIT_EXT, isSVC := false,
          nMinNumDecodeSurfaces := 100 } ≠ 17 := by
  decide

/-- C6, amended: for every sequence info with declared minimum 100 and
layered flag false, `BeginSequence` returns 17 when the codec is
`VK_VIDEO_CODEC_OPERATION_ENCODE_H264_BIT_EXT` and 16 for every other codec:
the value 100 is clamped to the ceiling 16, or 17 for that codec, and the
final bound 17 changes nothing. -/
theorem BeginSequence_hundred (codec : Nat) :
    VideoParserClient.BeginSequence
      { eCodec := codec, isSVC := false, nMinNumDecodeSurfaces := 100 }
      = if codec = VK_VIDEO_CODEC_OPERATION_ENCODE_H264_BIT_EXT then 17 else 16 := by
  unfold VideoParserClient.BeginSequence
  by_cases hc : codec = VK_VIDEO_CODEC_OPERATION_ENCODE_H264_BIT_EXT <;> simp [hc]

/-! ## Theorems: the stream bridge -/

theorem processLoop_drain (fuel : Nat) :
    ∀ bus : List GstMessage, bus.length < fuel →
      processLoop fuel bus = some (bus.flatMap logMessage, []) := by
  induction fuel with
  | zero => intro bus h; omega
  | succ fuel ih =>
    intro bus h
    cases bus with
    | nil => simp [processLoop, gst_bus_pop]
    | cons msg rest =>
      have hr : rest.length < fuel := by simpa using h
      simp [processLoop, gst_bus_pop, ih rest hr]

theorem handoffs_ok (bufs : List (List Nat)) :
    ∀ p : GstVkVideoParser, (p.mParser ≠ none ∨ bufs = []) →
      ∃ p1, p.handoffs bufs
          = some (bufs.map (fun _ => GST_ERROR "Coucou buffer" []), p1) ∧
        p1.m_bus = p.m_bus ∧ p1.m_harness = p.m_harness := by
  induction bufs with
  | nil => intro p _; exact ⟨p, rfl, rfl, rfl⟩
  | cons buf bufs ih =>
    intro p hp
    have hne : p.mParser ≠ none := by
      rcases hp with hp | hp
      · exact hp
      · simp at hp
    cases he : p.mParser with
    | none => exact absurd he hne
    | some e =>
      obtain ⟨p1, h1, h2, h3⟩ :=
        ih { p with mParser := some { e with received := e.received ++ [buf] } }
          (Or.inl (by simp))
      refine ⟨p1, ?_, h2, h3⟩
      simp [GstVkVideoParser.handoffs, on_gst_buffer, GstVkVideoParser.parseBuffer,
        he, h1]

/-- C7, as stated, fails: when the pipeline answers a push with
`GST_FLOW_ERROR` after posting an error message, `pushBuffer` returns
`GST_FLOW_ERROR` with that message still pending on the bus; the statements
logged are the debug line of the push and the warning, not the message. -/
theorem pushBuffer_error_not_drained :
    ∃ p1 : GstVkVideoParser,
      builtBridge.pushBuffer [0, 0, 0, 1, 103] failedPush
        = some (GST_FLOW_ERROR,
            [GST_DEBUG_OBJECT ("Pushing buffer: %" ++ GST_PTR_FORMAT)
                [LogArg.buffer [0, 0, 0, 1, 103]],
              GST_WARNING_OBJECT "Couldn't push buffer: %s"
                [LogArg.flowName GST_FLOW_ERROR]],
            p1) ∧
      p1.m_bus
        = some [GstMessage.error "Internal data stream error." "streaming stopped"] ∧
      p1.m_bus ≠ some [] :=
  ⟨{ builtBridge with
      m_bus := some [GstMessage.error "Internal data stream error." "streaming stopped"] },
    by decide, rfl, by decide⟩

/-- C7, amended: on a built bridge (harness and bus set) that holds an engine,
or during a push in which the sink hands over no buffer, `pushBuffer` returns
to the caller the pipeline's flow result unchanged, for every result. When
the result is `GST_FLOW_OK` or `GST_FLOW_EOS`, every pending message has been
popped and logged before it returns and the bus is empty; for any other
result `pushBuffer` logs the warning `Couldn't push buffer: %s` with the flow
name and returns at once, the bus still holding every message that was
pending. In both cases the log starts with the debug line of the push and one
`Coucou buffer` error per buffer handed over. -/
theorem pushBuffer_result (p : GstVkVideoParser) (buffer : List Nat)
    (h : HarnessPush) (hs : GstHarness) (bus : List GstMessage)
    (hh : p.m_harness = some hs) (hb : p.m_bus = some bus)
    (he : p.mParser ≠ none ∨ h.handoffs = []) :
    ∃ (log : List LogLine) (p1 : GstVkVideoParser),
      p.pushBuffer buffer h = some (h.ret, log, p1) ∧
      ((h.ret = GST_FLOW_OK ∨ h.ret = GST_FLOW_EOS) →
        p1.m_bus = some [] ∧
        log = [GST_DEBUG_OBJECT ("Pushing buffer: %" ++ GST_PTR_FORMAT)
                [LogArg.buffer buffer]]
              ++ h.handoffs.map (fun _ => GST_ERROR "Coucou buffer" [])
              ++ (bus ++ h.posted).flatMap logMessage) ∧
      (¬ (h.ret = GST_FLOW_OK ∨ h.ret = GST_FLOW_EOS) →
        p1.m_bus = some (bus ++ h.posted) ∧
        log = [GST_DEBUG_OBJECT ("Pushing buffer: %" ++ GST_PTR_FORMAT)
                [LogArg.buffer buffer]]
              ++ h.handoffs.map (fun _ => GST_ERROR "Coucou buffer" [])
              ++ [GST_WARNING_OBJECT "Couldn't push buffer: %s"
                    [LogArg.flowName h.ret]]) := by
  obtain ⟨p0, h0, _, _⟩ := handoffs_ok h.handoffs p he
  have hpush : p.harnessPush h
      = some (h.handoffs.map (fun _ => GST_ERROR "Coucou buffer" []),
          { p0 with m_bus := some (bus ++ h.posted) }) := by
    simp [GstVkVideoParser.harnessPush, hh, hb, h0]
  by_cases hr : h.ret = GST_FLOW_OK ∨ h.ret = GST_FLOW_EOS
  · have hcond : ¬ (h.ret ≠ GST_FLOW_OK ∧ h.ret ≠ GST_FLOW_EOS) := by
      rcases hr with hr | hr <;> simp [hr]
    have hdrain := processLoop_drain ((bus ++ h.posted).length + 1) (bus ++ h.posted)
      (Nat.lt_succ_self _)
    refine ⟨_, { p0 with m_bus := some [] }, ?_,
      fun _ => ⟨rfl, rfl⟩, fun hn => absurd hr hn⟩
    simp only [GstVkVideoParser.pushBuffer, hpush]
    rw [if_neg hcond]
    simp only [GstVkVideoParser.processMessages, hdrain]
  · have hcond : h.ret ≠ GST_FLOW_OK ∧ h.ret ≠ GST_FLOW_EOS := by
      constructor
      · exact fun e => hr (Or.inl e)
      · exact fun e => hr (Or.inr e)
    refine ⟨_, { p0 with m_bus := some (bus ++ h.posted) }, ?_,
      fun hn => absurd hn hr, fun _ => ⟨rfl, rfl⟩⟩
    simp only [GstVkVideoParser.pushBuffer, hpush]
    rw [if_pos hcond]

/-- Witness of `pushBuffer_result`: a successful push on `builtBridge` during
which one buffer is handed over and one warning is posted. -/
theorem pushBuffer_result_witness :
    builtBridge.m_harness
        = some { parser_name := "h264parse"
                 src_caps_desc := "video/x-h264,stream-format=byte-stream"
                 live := false, playing := true } ∧
    builtBridge.m_bus = some [] ∧
    ∃ (log : List LogLine) (p1 : GstVkVideoParser),
      builtBridge.pushBuffer [0, 0, 0, 1, 103]
          { ret := GST_FLOW_OK, handoffs := [[0, 0, 0, 1, 103]],
            posted := [GstMessage.warning "w" "d"] }
        = some (GST_FLOW_OK, log, p1) ∧
      ((GST_FLOW_OK = GST_FLOW_OK ∨ GST_FLOW_OK = GST_FLOW_EOS) →
        p1.m_bus = some [] ∧
        log = [GST_DEBUG_OBJECT ("Pushing buffer: %" ++ GST_PTR_FORMAT)
                [LogArg.buffer [0, 0, 0, 1, 103]]]
              ++ [[0, 0, 0, 1, 103]].map (fun _ => GST_ERROR "Coucou buffer" [])
              ++ ([] ++ [GstMessage.warning "w" "d"]).flatMap logMessage) ∧
      (¬ (GST_FLOW_OK = GST_FLOW_OK ∨ GST_FLOW_OK = GST_FLOW_EOS) →
        p1.m_bus = some ([] ++ [GstMessage.warning "w" "d"]) ∧
        log = [GST_DEBUG_OBJECT ("Pushing buffer: %" ++ GST_PTR_FORMAT)
                [LogArg.buffer [0, 0, 0, 1, 103]]]
              ++ [[0, 0, 0, 1, 103]].map (fun _ => GST_ERROR "Coucou buffer" [])
              ++ [GST_WARNING_OBJECT "Couldn't push buffer: %s"
                    [LogArg.flowName GST_FLOW_OK]]) :=
  ⟨rfl, rfl,
    pushBuffer_result builtBridge [0, 0, 0, 1, 103]
      { ret := GST_FLOW_OK, handoffs := [[0, 0, 0, 1, 103]],
        posted := [GstMessage.warning "w" "d"] }
      _ [] rfl rfl (Or.inl (by decide))⟩

/-- C10, code at the failing input: for the H.265-decode selector with the
stages linking, `build` returns true and leaves the engine member unset, so
`parseBuffer` on any output buffer, and a push during which the sink hands
over a buffer, reach an unset engine. For the H.264-decode selector `build`
returns true with the engine set, and for every other selector it returns
false. -/
theorem build_h265_engine_unset (client : Nat) (oob : Bool) :
    (((GstVkVideoParser.new client VK_VIDEO_CODEC_OPERATION_DECODE_H265_BIT_EXT
        oob).build true).1 = true ∧
      ((GstVkVideoParser.new client VK_VIDEO_CODEC_OPERATION_DECODE_H265_BIT_EXT
        oob).build true).2.mParser = none ∧
      (∀ buffer : List Nat,
        ((GstVkVideoParser.new client VK_VIDEO_CODEC_OPERATION_DECODE_H265_BIT_EXT
          oob).build true).2.parseBuffer buffer = none) ∧
      (∀ (ret : Int) (pushed buffer : List Nat) (posted : List GstMessage),
        ((GstVkVideoParser.new client VK_VIDEO_CODEC_OPERATION_DECODE_H265_BIT_EXT
          oob).build true).2.pushBuffer pushed
            { ret := ret, handoffs := [buffer], posted := posted } = none)) ∧
    (((GstVkVideoParser.new client VK_VIDEO_CODEC_OPERATION_DECODE_H264_BIT_EXT
        oob).build true).1 = true ∧
      ((GstVkVideoParser.new client VK_VIDEO_CODEC_OPERATION_DECODE_H264_BIT_EXT
        oob).build true).2.mParser = some { client := client, received := [] }) ∧
    (∀ (codec : Nat) ( linkOk : Bool),
      codec ≠ VK_VIDEO_CODEC_OPERATION_DECODE_H264_BIT_EXT →
      codec ≠ VK_VIDEO_CODEC_OPERATION_DECODE_H265_BIT_EXT →
      ((GstVkVideoParser.new client codec oob).build linkOk).1 = false) := by
  refine ⟨⟨rfl, rfl, fun _ => rfl, fun _ _ _ _ => rfl⟩, ⟨rfl, rfl⟩, ?_⟩
  intro codec linkOk h1 h2
  simp [GstVkVideoParser.build, GstVkVideoParser.new, h1, h2]

/-! ## Theorems: the command-line driver -/

/-- C8, code at the failing input: on a five-byte file whose only packet the
engine rejects, with no picture held at the end and `Release` returning 0,
the loop is left on the parse failure, `parse` returns true after handing
over that one packet, and `main` exits with `EXIT_SUCCESS`. -/
theorem parse_failure_exits_zero :
    parse 8192 rejectingEngine [0, 0, 0, 1, 103]
      = some (ParseOutcome.returned true,
          [{ pByteStream := [0, 0, 0, 1, 103], nDataLength := 5, bEOS := true }]) ∧
    parseLoop 8192 rejectingEngine 6 [0, 0, 0, 1, 103] []
      = some (LoopExit.parseFailed,
          [{ pByteStream := [0, 0, 0, 1, 103], nDataLength := 5, bEOS := true }]) ∧
    Test.main false true (some [0, 0, 0, 1, 103]) 8192 rejectingEngine
      = some (ExitStatus.exited EXIT_SUCCESS) ∧
    EXIT_SUCCESS = 0 := by
  decide

theorem parseLoop_accepting (BUFSIZ : Nat) (parser : VulkanVideoDecodeParser)
    (hB : 0 < BUFSIZ) (hB2 : BUFSIZ < 2147483648)
    (hacc : ∀ sent pkt, parser.ParseByteStream sent pkt = (true, pkt.nDataLength))
    (fuel : Nat) :
    ∀ (stream : List Nat) (sent : List VkParserBitstreamPacket),
      stream.length < fuel →
      ∃ pkts : List VkParserBitstreamPacket,
        parseLoop BUFSIZ parser fuel stream sent = some (LoopExit.endOfData, pkts) ∧
        (pkts.map (fun pkt => pkt.pByteStream)).flatten = stream ∧
        (∀ pkt ∈ pkts, pkt.nDataLength = (pkt.pByteStream.length : Int) ∧
          0 < pkt.pByteStream.length ∧ pkt.pByteStream.length ≤ BUFSIZ ∧
          (pkt.bEOS = true ↔ pkt.pByteStream.length < BUFSIZ)) ∧
        (stream = [] → pkts = []) ∧
        (stream ≠ [] → ∃ last, pkts.getLast? = some last ∧
          (last.bEOS = true ↔ stream.length % BUFSIZ ≠ 0)) ∧
        (stream.length % BUFSIZ = 0 → ∀ pkt ∈ pkts, pkt.bEOS = false) := by
  induction fuel with
  | zero => intro stream sent h; omega
  | succ fuel ih =>
    intro stream sent hlen
    by_cases hs : stream = []
    · subst hs
      exact ⟨[], by simp [parseLoop, fread], by simp, by simp, fun _ => rfl,
        fun h => absurd rfl h, by simp⟩
    · have hpos : 0 < stream.length := List.length_pos.mpr hs
      have hread : 0 < min BUFSIZ stream.length := by omega
      have hdrop : (stream.drop (min BUFSIZ stream.length)).length < fuel := by
        simp only [List.length_drop]
        omega
      have hwrap : wrapInt32 ((min BUFSIZ stream.length : Nat) : Int)
          = ((min BUFSIZ stream.length : Nat) : Int) :=
        wrapInt32_of_range _ (by omega) (by omega)
      have htake : (stream.take (min BUFSIZ stream.length)).length
          = min BUFSIZ stream.length := by
        simp only [List.length_take]
        omega
      obtain ⟨pkts, hrec, hcat, hall, hnil, hlast, hnoeos⟩ :=
        ih (stream.drop (min BUFSIZ stream.length))
          (sent ++ [{ pByteStream := stream.take (min BUFSIZ stream.length)
                      nDataLength := wrapInt32 ((min BUFSIZ stream.length : Nat) : Int)
                      bEOS := decide (min BUFSIZ stream.length < BUFSIZ) }]) hdrop
      refine ⟨{ pByteStream := stream.take (min BUFSIZ stream.length)
                nDataLength := wrapInt32 ((min BUFSIZ stream.length : Nat) : Int)
                bEOS := decide (min BUFSIZ stream.length < BUFSIZ) } :: pkts,
        ?_, ?_, ?_, ?_, ?_, ?_⟩
      · have hnot : ¬ (min BUFSIZ stream.length ≤ 0) := by omega
        simp only [parseLoop, fread, hacc, hrec]
        simp [hnot]
      · simp only [List.map_cons, List.flatten_cons, hcat, List.take_append_drop]
      · intro pkt hpkt
        rcases List.mem_cons.mp hpkt with rfl | hpkt
        · refine ⟨?_, ?_, ?_, ?_⟩
          · simp only [hwrap, htake]
          · simp only [htake]
            exact hread
          · simp only [htake]
            exact Nat.min_le_left _ _
          · simp only [htake, decide_eq_true_eq]
        · exact hall pkt hpkt
      · intro h
        exact absurd h hs
      · intro _
        by_cases hd : stream.drop (min BUFSIZ stream.length) = []
        · rw [hnil hd]
          refine ⟨{ pByteStream := stream.take (min BUFSIZ stream.length)
                    nDataLength := wrapInt32 ((min BUFSIZ stream.length : Nat) : Int)
                    bEOS := decide (min BUFSIZ stream.length < BUFSIZ) }, rfl, ?_⟩
          have hle : stream.length ≤ min BUFSIZ stream.length := by
            have := congrArg List.length hd
            simp only [List.length_drop, List.length_nil] at this
            omega
          simp only [decide_eq_true_eq]
          by_cases hlt : stream.length < BUFSIZ
          · rw [Nat.mod_eq_of_lt hlt]
            omega
          · have heq : stream.length = BUFSIZ := by omega
            rw [heq, Nat.mod_self]
            omega
        · obtain ⟨last, hl, hle⟩ := hlast hd
          have hgt : BUFSIZ < stream.length := by
            have : 0 < (stream.drop (min BUFSIZ stream.length)).length :=
              List.length_pos.mpr hd
            simp only [List.length_drop] at this
            omega
          have hlenr : (stream.drop (min BUFSIZ stream.length)).length + BUFSIZ
              = stream.length := by
            simp only [List.length_drop]
            omega
          have hmod := Nat.add_mod_right
            (stream.drop (min BUFSIZ stream.length)).length BUFSIZ
          rw [hlenr] at hmod
          refine ⟨last, ?_, ?_⟩
          · cases pkts with
            | nil => simp at hl
            | cons a rest => simpa using hl
          · rw [hle, hmod]
      · intro hmod pkt hpkt
        have hge : BUFSIZ ≤ stream.length := by
          by_contra hlt
          rw [Nat.mod_eq_of_lt (Nat.lt_of_not_le hlt)] at hmod
          omega
        have hmin : min BUFSIZ stream.length = BUFSIZ := Nat.min_eq_left hge
        rcases List.mem_cons.mp hpkt with rfl | hpkt
        · simp [hmin]
        · have hlenr : (stream.drop (min BUFSIZ stream.length)).length + BUFSIZ
              = stream.length := by
            simp only [List.length_drop]
            omega
          have hm := Nat.add_mod_right
            (stream.drop (min BUFSIZ stream.length)).length BUFSIZ
          rw [hlenr, hmod] at hm
          exact hnoeos hm.symm pkt hpkt

/-- The loop of `parse` ends within one iteration per byte left plus one,
whatever the engine answers. -/
theorem parseLoop_total (BUFSIZ : Nat) (parser : VulkanVideoDecodeParser)
    (fuel : Nat) :
    ∀ (stream : List Nat) (sent : List VkParserBitstreamPacket),
      stream.length < fuel →
      ∃ r, parseLoop BUFSIZ parser fuel stream sent = some r := by
  induction fuel with
  | zero => intro stream sent h; omega
  | succ fuel ih =>
    intro stream sent hlen
    by_cases hz : min BUFSIZ stream.length ≤ 0
    · exact ⟨(LoopExit.endOfData, []), by simp only [parseLoop, fread, hz, if_true]⟩
    · have hdrop : (stream.drop (min BUFSIZ stream.length)).length < fuel := by
        simp only [List.length_drop]
        omega
      simp only [parseLoop, fread, hz, if_false]
      split
      · exact ⟨_, rfl⟩
      · split
        · exact ⟨_, rfl⟩
        · obtain ⟨r, hr⟩ := ih (stream.drop (min BUFSIZ stream.length))
            (sent ++ [{ pByteStream := stream.take (min BUFSIZ stream.length)
                        nDataLength := wrapInt32 ((min BUFSIZ stream.length : Nat) : Int)
                        bEOS := decide (min BUFSIZ stream.length < BUFSIZ) }]) hdrop
          rw [hr]
          exact ⟨_, rfl⟩

/-- The function `parse` always ends, by a return or by a failed assertion. -/
theorem parse_total (BUFSIZ : Nat) (parser : VulkanVideoDecodeParser)
    (stream : List Nat) : ∃ r, parse BUFSIZ parser stream = some r := by
  obtain ⟨r, hr⟩ := parseLoop_total BUFSIZ parser (stream.length + 1) stream []
    (Nat.lt_succ_self _)
  unfold parse
  simp only [hr]
  split
  · exact ⟨_, rfl⟩
  · split
    · exact ⟨_, rfl⟩
    · split
      · rename_i h
        cases h
      · exact ⟨_, rfl⟩
      · split
        · exact ⟨_, rfl⟩
        · split <;> exact ⟨_, rfl⟩

theorem parse_accepting (BUFSIZ : Nat) (parser : VulkanVideoDecodeParser)
    (stream : List Nat) (hB : 0 < BUFSIZ) (hB2 : BUFSIZ < 2147483648)
    (hc : parser.Create = true) (hi : parser.Initialize = VK_SUCCESS)
    (hacc : ∀ sent pkt, parser.ParseByteStream sent pkt = (true, pkt.nDataLength)) :
    ∃ pkts : List VkParserBitstreamPacket,
      parse BUFSIZ parser stream
        = some (if parser.Release pkts = 0 ∧
                    (parser.clientAtExit pkts).destructor = some ()
                then ParseOutcome.returned true
                else ParseOutcome.aborted, pkts) ∧
      (pkts.map (fun pkt => pkt.pByteStream)).flatten = stream ∧
      (∀ pkt ∈ pkts, pkt.nDataLength = (pkt.pByteStream.length : Int) ∧
        0 < pkt.pByteStream.length ∧ pkt.pByteStream.length ≤ BUFSIZ ∧
        (pkt.bEOS = true ↔ pkt.pByteStream.length < BUFSIZ)) ∧
      (stream ≠ [] → ∃ last, pkts.getLast? = some last ∧
        (last.bEOS = true ↔ stream.length % BUFSIZ ≠ 0)) ∧
      (stream.length % BUFSIZ = 0 → ∀ pkt ∈ pkts, pkt.bEOS = false) := by
  obtain ⟨pkts, hrec, hcat, hall, _, hlast, hnoeos⟩ :=
    parseLoop_accepting BUFSIZ parser hB hB2 hacc (stream.length + 1) stream []
      (Nat.lt_succ_self _)
  refine ⟨pkts, ?_, hcat, hall, hlast, hnoeos⟩
  unfold parse
  simp only [hc, hi, hrec]
  by_cases hr : parser.Release pkts = 0
  · cases hd : (parser.clientAtExit pkts).destructor with
    | none => simp [hr]
    | some u => simp [hr]
  · simp [hr]

/-- C9, code at the failing input: for a file of exactly 8192 bytes read in
chunks of `BUFSIZ` = 8192 bytes, every packet being accepted by the engine,
`parse` returns true, the packets handed to `ParseByteStream` make up the
file, the final packet has its end-of-stream flag unset, and no packet at all
has it set. -/
theorem parse_full_chunk_no_eos :
    ∃ (pkts : List VkParserBitstreamPacket) (last : VkParserBitstreamPacket),
      parse 8192 acceptingEngine (List.replicate 8192 0)
        = some (ParseOutcome.returned true, pkts) ∧
      (pkts.map (fun pkt => pkt.pByteStream)).flatten = List.replicate 8192 0 ∧
      pkts.getLast? = some last ∧ last.bEOS = false ∧
      last.nDataLength = (last.pByteStream.length : Int) ∧
      ∀ pkt ∈ pkts, pkt.bEOS = false := by
  have hne : List.replicate 8192 0 ≠ ([] : List Nat) := by
    intro h
    have := congrArg List.length h
    rw [List.length_replicate] at this
    exact absurd this (by decide)
  obtain ⟨pkts, hp, hcat, hall, hlast, hnoeos⟩ :=
    parse_accepting 8192 acceptingEngine (List.replicate 8192 0) (by decide)
      (by decide) rfl rfl (fun _ _ => rfl)
  obtain ⟨last, hl, _⟩ := hlast hne
  have hmod : (List.replicate 8192 0).length % 8192 = 0 := by
    rw [List.length_replicate]
  have hmem : last ∈ pkts := List.mem_of_mem_getLast? hl
  refine ⟨pkts, last, ?_, hcat, hl, hnoeos hmod last hmem, (hall last hmem).1,
    hnoeos hmod⟩
  rw [hp]
  rfl
